import Mathlib

/-! Game-transfer wallet relay: signing and request construction.

A shallow embedding of `src/main.go`: `GenerateSign` (lines 20-50), `CallApi`
(lines 53-84) and `HandleSubmit` (lines 87-175), with the parts of the Go
standard library they lean on (`fmt`'s `%v`, `sort.Strings`, `crypto/md5`,
`encoding/hex`, and how `encoding/json` writes a float64).

Go's `interface{}` values are the values `encoding/json` decodes into; a
`map[string]interface{}` is an association list in which the first binding of
a key is the map's binding, and the order of the list stands for the
unspecified iteration order of the map.
-/

/-! ## Values -/

/-- A finite float64, held as the shortest decimal that reads back to it: the
digits `d` (most significant first, none for zero) and the position `dp` of
the decimal point, so that the value is `± 0.d₀d₁d₂… × 10 ^ dp`. This is the
`decimalSlice` that `strconv` computes before laying a float out as text. -/
structure Float64 where
  neg : Bool
  d : List Nat
  dp : Int
deriving DecidableEq, Repr

/-- The comparison `f > 0` on a float64. -/
def Float64.gt0 (f : Float64) : Bool :=
  !f.neg && f.d.any (fun c => c != 0)

/-- A Go `interface{}` as produced by `encoding/json`: `nil`, `bool`,
`float64`, `string`, `[]interface{}` or `map[string]interface{}`. -/
inductive Value where
  | null
  | bool (b : Bool)
  | num (f : Float64)
  | str (s : String)
  | arr (xs : List Value)
  | obj (kvs : List (String × Value))
deriving Repr

mutual
/-- Boolean equality of values. -/
def Value.beq : Value → Value → Bool
  | .null, .null => true
  | .bool a, .bool b => a == b
  | .num a, .num b => a == b
  | .str a, .str b => a == b
  | .arr a, .arr b => Value.beqList a b
  | .obj a, .obj b => Value.beqFields a b
  | _, _ => false
/-- Boolean equality of lists of values. -/
def Value.beqList : List Value → List Value → Bool
  | [], [] => true
  | x :: xs, y :: ys => Value.beq x y && Value.beqList xs ys
  | _, _ => false
/-- Boolean equality of lists of fields. -/
def Value.beqFields : List (String × Value) → List (String × Value) → Bool
  | [], [] => true
  | (k, x) :: xs, (l, y) :: ys => k == l && Value.beq x y && Value.beqFields xs ys
  | _, _ => false
end

/-- A Go `map[string]interface{}`. -/
abbrev GoMap := List (String × Value)

/-- The index expression `m[k]`: the value bound to `k`, `nil` when `k` is not
a key of the map. -/
def GoMap.get (m : GoMap) (k : String) : Value :=
  match m.lookup k with
  | some v => v
  | none => .null

/-- The assignment `m[k] = v`. -/
def GoMap.set (m : GoMap) (k : String) (v : Value) : GoMap :=
  (k, v) :: m.filter (fun p => p.1 != k)

/-- The keys of a map, each once, in the order a `range` loop meets them. -/
def GoMap.keys (m : GoMap) : List String :=
  (m.map Prod.fst).dedup

/-! ## `sort.Strings` -/

/-- Lexicographic `≤` on sequences of numbers. -/
def lexLE : List Nat → List Nat → Bool
  | [], _ => true
  | _ :: _, [] => false
  | x :: xs, y :: ys => x < y || (x == y && lexLE xs ys)

/-- The order of `sort.Strings`: Go compares strings byte by byte, which on
the UTF-8 strings that `encoding/json` yields is the lexicographic order of
their code points. -/
def strLE (a b : String) : Bool :=
  lexLE (a.data.map Char.toNat) (b.data.map Char.toNat)

namespace sort

/-- The call `sort.Strings(keys)`: the keys in ascending order. -/
def Strings (keys : List String) : List String :=
  keys.insertionSort (fun a b => strLE a b = true)

end sort

/-! ## `fmt`: the verb `%v` -/

namespace fmt

/-- Decimal digits as text. -/
def digits (ds : List Nat) : String :=
  String.mk (ds.map Nat.digitChar)

/-- A run of `n` zeros. -/
def zeros (n : Nat) : String :=
  String.mk (List.replicate n '0')

/-- The layout `%e` of `strconv` (`fmtE`) with `prec` digits after the point:
`d.ddddde±dd`. -/
def fmtE (neg : Bool) (d : List Nat) (dp : Int) (prec : Int) : String :=
  let sign := if neg then "-" else ""
  let first := digits [d.headD 0]
  let m := min d.length (prec + 1).toNat
  let more :=
    if prec > 0 then "." ++ digits ((d.take m).drop 1) ++ zeros ((prec + 1).toNat - max 1 m)
    else ""
  let exp : Int := if d.length = 0 then 0 else dp - 1
  let esign := if exp < 0 then "-" else "+"
  let e := exp.natAbs
  let edigits :=
    if e < 10 then digits [0, e]
    else if e < 100 then digits [e / 10, e % 10]
    else digits [e / 100, e / 10 % 10, e % 10]
  sign ++ first ++ more ++ "e" ++ esign ++ edigits

/-- The layout `%f` of `strconv` (`fmtF`) with `prec` digits after the
point. -/
def fmtF (neg : Bool) (d : List Nat) (dp : Int) (prec : Nat) : String :=
  let sign := if neg then "-" else ""
  let m := min d.length dp.toNat
  let int := if dp > 0 then digits (d.take m) ++ zeros (dp.toNat - m) else "0"
  let frac :=
    if prec > 0 then
      "." ++ digits ((List.range prec).map (fun i =>
        let j : Int := dp + i
        if 0 ≤ j ∧ j < d.length then d.getD j.toNat 0 else 0))
    else ""
  sign ++ int ++ frac

/-- The verb `%v` on a float64: `strconv.FormatFloat(f, 'g', -1, 64)`. With
the shortest digits, `%e` is used when the decimal exponent is below -4 or at
least 6 (`eprec = 6`), and `%f` otherwise. -/
def float (f : Float64) : String :=
  let nd : Int := f.d.length
  let exp := f.dp - 1
  if exp < -4 ∨ exp ≥ 6 then fmtE f.neg f.d f.dp (nd - 1)
  else fmtF f.neg f.d f.dp (nd - f.dp).toNat

mutual
/-- The verb `%v` on an `interface{}`: strings verbatim, floats as `float`
lays them out, `true`/`false`, `<nil>`, slices as `[a b c]` and maps as
`map[k:v k:v]` with the keys in ascending order. -/
def v : Value → String
  | .null => "<nil>"
  | .bool b => if b then "true" else "false"
  | .num f => float f
  | .str s => s
  | .arr xs => "[" ++ " ".intercalate (vs xs) ++ "]"
  | .obj kvs =>
    let shown := fields kvs
    let keys := sort.Strings (shown.map Prod.fst).dedup
    "map[" ++ " ".intercalate (keys.map (fun k => k ++ ":" ++ (shown.lookup k).getD "")) ++ "]"
/-- The verb `%v` on each element of a slice. -/
def vs : List Value → List String
  | [] => []
  | x :: xs => v x :: vs xs
/-- The verb `%v` on each value of a map. -/
def fields : List (String × Value) → List (String × String)
  | [] => []
  | (k, x) :: kvs => (k, v x) :: fields kvs
end

end fmt

/-! ## `crypto/md5` and `encoding/hex` -/

/-- The bytes of a Go string: its UTF-8 encoding. -/
def utf8 (s : String) : List Nat :=
  (s.data.flatMap String.utf8EncodeChar).map UInt8.toNat

namespace md5

/-- Per-round shift amounts. -/
def s : List Nat :=
  [7, 12, 17, 22, 7, 12, 17, 22, 7, 12, 17, 22, 7, 12, 17, 22,
   5, 9, 14, 20, 5, 9, 14, 20, 5, 9, 14, 20, 5, 9, 14, 20,
   4, 11, 16, 23, 4, 11, 16, 23, 4, 11, 16, 23, 4, 11, 16, 23,
   6, 10, 15, 21, 6, 10, 15, 21, 6, 10, 15, 21, 6, 10, 15, 21]

/-- Per-round additive constants, `⌊2³² · |sin (i + 1)|⌋`. -/
def K : List Nat :=
  [0xd76aa478, 0xe8c7b756, 0x242070db, 0xc1bdceee, 0xf57c0faf, 0x4787c62a, 0xa8304613, 0xfd469501,
   0x698098d8, 0x8b44f7af, 0xffff5bb1, 0x895cd7be, 0x6b901122, 0xfd987193, 0xa679438e, 0x49b40821,
   0xf61e2562, 0xc040b340, 0x265e5a51, 0xe9b6c7aa, 0xd62f105d, 0x02441453, 0xd8a1e681, 0xe7d3fbc8,
   0x21e1cde6, 0xc33707d6, 0xf4d50d87, 0x455a14ed, 0xa9e3e905, 0xfcefa3f8, 0x676f02d9, 0x8d2a4c8a,
   0xfffa3942, 0x8771f681, 0x6d9d6122, 0xfde5380c, 0xa4beea44, 0x4bdecfa9, 0xf6bb4b60, 0xbebfbc70,
   0x289b7ec6, 0xeaa127fa, 0xd4ef3085, 0x04881d05, 0xd9d4d039, 0xe6db99e5, 0x1fa27cf8, 0xc4ac5665,
   0xf4292244, 0x432aff97, 0xab9423a7, 0xfc93a039, 0x655b59c3, 0x8f0ccc92, 0xffeff47d, 0x85845dd1,
   0x6fa87e4f, 0xfe2ce6e0, 0xa3014314, 0x4e0811a1, 0xf7537e82, 0xbd3af235, 0x2ad7d2bb, 0xeb86d391]

/-- The modulus of 32-bit words. -/
def w32 : Nat := 2 ^ 32

/-- Rotate a 32-bit word left by `c` bits. -/
def rotl (x c : Nat) : Nat :=
  ((x <<< c) ||| (x >>> (32 - c))) % w32

/-- Bitwise complement of a 32-bit word. -/
def not32 (x : Nat) : Nat :=
  (w32 - 1) ^^^ x

/-- The four 32-bit words of the running digest. -/
structure State where
  a : Nat
  b : Nat
  c : Nat
  d : Nat

/-- The initial digest. -/
def init : State :=
  ⟨0x67452301, 0xefcdab89, 0x98badcfe, 0x10325476⟩

/-- The little-endian 32-bit word at the head of a byte sequence. -/
def le32 (bs : List Nat) : Nat :=
  bs.getD 0 0 + bs.getD 1 0 * 2 ^ 8 + bs.getD 2 0 * 2 ^ 16 + bs.getD 3 0 * 2 ^ 24

/-- The four bytes of a 32-bit word, little-endian. -/
def bytes32 (x : Nat) : List Nat :=
  [x % 256, x / 2 ^ 8 % 256, x / 2 ^ 16 % 256, x / 2 ^ 24 % 256]

/-- Operation `i` (0 to 63) on the message words `M` of one block. -/
def round (M : List Nat) (st : State) (i : Nat) : State :=
  let f :=
    if i < 16 then (st.b &&& st.c) ||| (not32 st.b &&& st.d)
    else if i < 32 then (st.d &&& st.b) ||| (not32 st.d &&& st.c)
    else if i < 48 then st.b ^^^ st.c ^^^ st.d
    else st.c ^^^ (st.b ||| not32 st.d)
  let g :=
    if i < 16 then i
    else if i < 32 then (5 * i + 1) % 16
    else if i < 48 then (3 * i + 5) % 16
    else (7 * i) % 16
  let f2 := (f + st.a + K.getD i 0 + M.getD g 0) % w32
  ⟨st.d, (st.b + rotl f2 (s.getD i 0)) % w32, st.b, st.c⟩

/-- The digest after one more 64-byte block. -/
def block (st : State) (chunk : List Nat) : State :=
  let M := (List.range 16).map (fun j => le32 (chunk.drop (4 * j)))
  let r := (List.range 64).foldl (round M) st
  ⟨(st.a + r.a) % w32, (st.b + r.b) % w32, (st.c + r.c) % w32, (st.d + r.d) % w32⟩

/-- The message followed by the bit `1`, zeros up to 56 modulo 64 bytes, and
its length in bits as a 64-bit little-endian number. -/
def pad (msg : List Nat) : List Nat :=
  let n := msg.length
  msg ++ [0x80] ++ List.replicate ((119 - n % 64) % 64) 0
    ++ bytes32 (8 * n % w32) ++ bytes32 (8 * n / w32 % w32)

/-- The digest after the first `n` blocks of `bs`. -/
def blocks : Nat → List Nat → State → State
  | 0, _, st => st
  | n + 1, bs, st => blocks n (bs.drop 64) (block st (bs.take 64))

/-- The call `md5.Sum(data)`: the 16 bytes of the MD5 digest (RFC 1321). -/
def Sum (data : List Nat) : List Nat :=
  let p := pad data
  let st := blocks (p.length / 64) p init
  bytes32 st.a ++ bytes32 st.b ++ bytes32 st.c ++ bytes32 st.d

end md5

namespace hex

/-- The digits of `encoding/hex`. -/
def hextable : List Char :=
  "0123456789abcdef".data

/-- The call `hex.EncodeToString(src)`: two digits per byte, high nibble
first. -/
def EncodeToString (src : List Nat) : String :=
  String.mk (src.flatMap (fun b => [hextable.getD (b / 16 % 16) '0', hextable.getD (b % 16) '0']))

end hex

/-! ## `GenerateSign` (lines 20-50) -/

/-- One turn of the loop of lines 31-39: at index `i` of the sorted keys, a key
whose value is not `nil` is written as `key=value`, after an `&` when
`i > 0`. -/
def GenerateSign.step (formData : GoMap) (queryString : String) (ik : Nat × String) : String :=
  match formData.get ik.2 with
  | .null => queryString
  | value => (if ik.1 > 0 then queryString ++ "&" else queryString) ++ (ik.2 ++ "=" ++ fmt.v value)

/-- The contents of the builder `queryString` at line 44, the string that is
hashed: the keys are collected and sorted (lines 22-26), the loop of lines
31-39 runs over them, and the key is appended (line 41). -/
def GenerateSign.queryString (formData : GoMap) (md5Key : String) : String :=
  let keys := sort.Strings formData.keys
  keys.enum.foldl (GenerateSign.step formData) "" ++ md5Key

/-- The function `GenerateSign`: the hex encoding of the MD5 digest of the
query string. The two `fmt.Println` calls of lines 46-47 only write to the
standard output and are left out. -/
def GenerateSign (formData : GoMap) (md5Key : String) : String :=
  hex.EncodeToString (md5.Sum (utf8 (GenerateSign.queryString formData md5Key)))

/-! ## `CallApi` (lines 53-84) -/

/-- One invocation of `http.Post`: the URL, and the map whose `json.Marshal`
encoding is the request body. -/
structure Call where
  url : String
  body : GoMap

/-- What lies outside the program: the downstream API, which answers a POST
with a status code and the bytes of a response body, or fails with an error
(`http.Post` and `io.ReadAll`), and `json.Unmarshal` into a
`map[string]interface{}`, which yields a map (the `nil` map for the JSON text
`null`) or an error. -/
structure World where
  post : Call → Except String (Nat × String)
  unmarshal : String → Except String (Option GoMap)

/-- The function `CallApi`: signs the data, stores the signature under `sign`,
posts the data and parses the body of the answer, whose status code is not
looked at. Returned with the result is the POST that was issued.
`json.Marshal` does not fail on a map of decoded JSON values and strings, so
its error branch (lines 60-62) is never taken. -/
def CallApi (w : World) (url : String) (data : GoMap) (md5Key : String) :
    Call × Except String (Option GoMap) :=
  let sign := GenerateSign data md5Key
  let data := data.set "sign" (.str sign)
  let call : Call := ⟨url, data⟩
  match w.post call with
  | .error err => (call, .error err)
  | .ok resp => (call, w.unmarshal resp.2)

/-! ## `HandleSubmit` (lines 87-175) -/

/-- The body of an HTTP response: plain text, or the JSON encoding of a
map. -/
inductive Body where
  | text (s : String)
  | json (m : GoMap)

/-- An HTTP response written by a handler. -/
structure Response where
  status : Nat
  contentType : String
  body : Body

namespace http

/-- The call `http.Error(w, msg, code)`: status `code` and the message, on a
line of its own, as plain text. -/
def Error (msg : String) (code : Nat) : Response :=
  ⟨code, "text/plain; charset=utf-8", .text (msg ++ "\n")⟩

end http

/-- What one run of a handler does: the POSTs it issues, in order, and the
response it writes, or `none` when it panics before writing one. -/
structure Exchange where
  calls : List Call
  response : Option Response

/-- The `switch` of lines 98-163: the path and the data of a recognised action,
`none` for the `default` branch. -/
def HandleSubmit.route (action : String) (requestBody : GoMap) : Option (String × GoMap) :=
  let data : GoMap := []
  if action = "game_init" then
    let data := data.set "cid" (requestBody.get "cid")
    let data := data.set "uid" (requestBody.get "uid")
    let data := data.set "nickname" (requestBody.get "nickname")
    let data := data.set "channel_id" (requestBody.get "channel_id")
    let data := data.set "sub_channel_id" (requestBody.get "sub_channel_id")
    let data := data.set "game_id" (requestBody.get "game_id")
    let data := data.set "language" (requestBody.get "language")
    let data := data.set "user_group" (requestBody.get "user_group")
    let data := data.set "vip_level" (requestBody.get "vip_level")
    match requestBody.get "amount" with
    | .num amount =>
      if amount.gt0 then
        let data := data.set "amount" (.num amount)
        let data := data.set "transaction_id" (requestBody.get "transaction_id")
        some ("/transfer/game/init", data)
      else some ("/transfer/game/init", data)
    | _ => some ("/transfer/game/init", data)
  else if action = "user_balance" then
    let data := data.set "cid" (requestBody.get "cid")
    let data := data.set "uid" (requestBody.get "uid")
    some ("/transfer/user/balance", data)
  else if action = "user_deposit" then
    let data := data.set "cid" (requestBody.get "cid")
    let data := data.set "uid" (requestBody.get "uid")
    let data := data.set "amount" (requestBody.get "amount")
    let data := data.set "transaction_id" (requestBody.get "transaction_id")
    some ("/transfer/user/deposit", data)
  else if action = "user_withdraw" then
    let data := data.set "cid" (requestBody.get "cid")
    let data := data.set "uid" (requestBody.get "uid")
    let data := data.set "amount" (requestBody.get "amount")
    let data := data.set "transaction_id" (requestBody.get "transaction_id")
    some ("/transfer/user/withdraw", data)
  else if action = "game_list" then
    let data := data.set "cid" (requestBody.get "cid")
    some ("/transfer/game/list", data)
  else if action = "user_kick" then
    let data := data.set "cid" (requestBody.get "cid")
    let data := data.set "uid" (requestBody.get "uid")
    let data := data.set "status" (requestBody.get "status")
    some ("/transfer/user/kick", data)
  else if action = "game_log" then
    let data := data.set "cid" (requestBody.get "cid")
    let data := data.set "start_time" (requestBody.get "start_time")
    let data := data.set "end_time" (requestBody.get "end_time")
    let data := data.set "page" (requestBody.get "page")
    let data := data.set "page_size" (requestBody.get "page_size")
    some ("/transfer/game/log", data)
  else if action = "user_order" then
    let data := data.set "cid" (requestBody.get "cid")
    let data := data.set "transaction_id" (requestBody.get "transaction_id")
    some ("/transfer/user/order", data)
  else none

/-- The handler `HandleSubmit`, on the outcome of decoding the request body
into `requestBody` (line 89): an error, or the decoded map (empty for the JSON
text `null`, which leaves the map `nil`). The type assertions of lines 94-96
have no `ok` result, so each panics on a value that is not a string. -/
def HandleSubmit (w : World) (decoded : Except String GoMap) : Exchange :=
  match decoded with
  | .error _ => ⟨[], some (http.Error "Invalid request body" 400)⟩
  | .ok requestBody =>
    match requestBody.get "action" with
    | .str action =>
      match requestBody.get "md5_key" with
      | .str md5Key =>
        match requestBody.get "api_url" with
        | .str apiUrl =>
          match HandleSubmit.route action requestBody with
          | none => ⟨[], some (http.Error "Invalid action provided" 400)⟩
          | some (apiPath, data) =>
            match CallApi w (apiUrl ++ apiPath) data md5Key with
            | (call, .error err) => ⟨[call], some (http.Error err 500)⟩
            | (call, .ok apiResponse) =>
              let result : Value :=
                match apiResponse with
                | some m => .obj m
                | none => .null
              ⟨[call], some ⟨200, "application/json", .json [("apiResponse", result)]⟩⟩
        | _ => ⟨[], none⟩
      | _ => ⟨[], none⟩
    | _ => ⟨[], none⟩

/-! ## Decidable equality of values -/

mutual
theorem Value.beq_iff : ∀ a b : Value, Value.beq a b = true ↔ a = b
  | .null, b => by cases b <;> simp [Value.beq]
  | .bool a, b => by cases b <;> simp [Value.beq]
  | .num a, b => by cases b <;> simp [Value.beq]
  | .str a, b => by cases b <;> simp [Value.beq]
  | .arr a, b => by cases b <;> simp [Value.beq, Value.beqList_iff a]
  | .obj a, b => by cases b <;> simp [Value.beq, Value.beqFields_iff a]
theorem Value.beqList_iff : ∀ a b : List Value, Value.beqList a b = true ↔ a = b
  | [], b => by cases b <;> simp [Value.beqList]
  | x :: xs, b => by cases b <;> simp [Value.beqList, Value.beq_iff x, Value.beqList_iff xs]
theorem Value.beqFields_iff :
    ∀ a b : List (String × Value), Value.beqFields a b = true ↔ a = b
  | [], b => by cases b <;> simp [Value.beqFields]
  | (k, x) :: xs, b => by
    cases b with
    | nil => simp [Value.beqFields]
    | cons p ys =>
      obtain ⟨l, y⟩ := p
      simp [Value.beqFields, Value.beq_iff x, Value.beqFields_iff xs, and_assoc]
end

instance : DecidableEq Value :=
  fun a b => decidable_of_iff _ (Value.beq_iff a b)

/-! ## Reference definitions, following the specification -/

/-- The canonical string in the words of the specification: the entries whose
value is not null, ordered by key, each rendered as `key=value`, joined by a
single `&`, followed by the secret. -/
def canonicalString (payload : GoMap) (secret : String) : String :=
  let entries := payload.keys.filter (fun k => payload.get k ≠ .null)
  "&".intercalate ((sort.Strings entries).map (fun k => k ++ "=" ++ fmt.v (payload.get k)))
    ++ secret

/-- The table of recognised actions of the specification: the action, its path
and its allow-list. -/
def specTable : List (String × String × List String) :=
  [("game_init", "/transfer/game/init",
      ["cid", "uid", "nickname", "channel_id", "sub_channel_id", "game_id", "language",
       "user_group", "vip_level", "amount", "transaction_id"]),
   ("user_balance", "/transfer/user/balance", ["cid", "uid"]),
   ("user_deposit", "/transfer/user/deposit", ["cid", "uid", "amount", "transaction_id"]),
   ("user_withdraw", "/transfer/user/withdraw", ["cid", "uid", "amount", "transaction_id"]),
   ("game_list", "/transfer/game/list", ["cid"]),
   ("user_kick", "/transfer/user/kick", ["cid", "uid", "status"]),
   ("game_log", "/transfer/game/log", ["cid", "start_time", "end_time", "page", "page_size"]),
   ("user_order", "/transfer/user/order", ["cid", "transaction_id"])]

/-- A world in which the downstream API cannot be reached. -/
def World.offline : World :=
  ⟨fun _ => .error "connection refused", fun _ => .error "unexpected end of JSON input"⟩

/-- The copy of the listed fields of a request, one assignment
`data[k] = requestBody[k]` per field. -/
def copyFields (fields : List String) (requestBody : GoMap) : GoMap :=
  fields.foldl (fun data k => data.set k (requestBody.get k)) []

/-- The test `amount, ok := requestBody["amount"].(float64); ok && amount > 0`
of line 113. -/
def amountPositive (requestBody : GoMap) : Bool :=
  match requestBody.get "amount" with
  | .num amount => amount.gt0
  | _ => false

/-- The request `{"action":"user_balance","cid":"C1","uid":"U1",
"md5_key":"secret","api_url":"http://x"}`. -/
def balanceRequest : GoMap :=
  [("action", .str "user_balance"), ("cid", .str "C1"), ("uid", .str "U1"),
   ("md5_key", .str "secret"), ("api_url", .str "http://x")]

/-- The request `{"action":"user_balance","uid":"U1","md5_key":"secret",
"api_url":"http://x"}`, which has no `cid`. -/
def balanceRequestNoCid : GoMap :=
  [("action", .str "user_balance"), ("uid", .str "U1"),
   ("md5_key", .str "secret"), ("api_url", .str "http://x")]

/-- The request `{"action":"game_init","cid":"C1","uid":"U1","amount":5,
"md5_key":"secret","api_url":"http://x"}`. -/
def gameInitRequest : GoMap :=
  [("action", .str "game_init"), ("cid", .str "C1"), ("uid", .str "U1"),
   ("amount", .num ⟨false, [5], 1⟩), ("md5_key", .str "secret"), ("api_url", .str "http://x")]

/-- The request `{"action":"foo","cid":"C1","md5_key":"secret",
"api_url":"http://x"}`. -/
def fooRequest : GoMap :=
  [("action", .str "foo"), ("cid", .str "C1"), ("md5_key", .str "secret"),
   ("api_url", .str "http://x")]

/-- The request `{"md5_key":"secret","api_url":"http://x"}`, which has no
`action`. -/
def noActionRequest : GoMap :=
  [("md5_key", .str "secret"), ("api_url", .str "http://x")]

/-- A world in which the downstream API answers every POST with the status
404 and the body `null`, which `json.Unmarshal` reads as the `nil` map. -/
def World.notFound : World :=
  ⟨fun _ => .ok (404, "null"), fun _ => .ok none⟩

/-- The decimal digits of `n`, least significant first, computed in at most
`fuel` steps. -/
def decimalDigits : Nat → Nat → List Nat
  | 0, _ => []
  | fuel + 1, n => if n = 0 then [] else n % 10 :: decimalDigits fuel (n / 10)

/-- The float64 that `encoding/json` decodes from the numeral of the natural
number `n`, for `n` below `2 ^ 53` (where every integer is a float64): its
shortest digits are those of `n` without the trailing zeros, and the decimal
point stands after as many places as `n` has digits. -/
def Float64.ofNat (n : Nat) : Float64 :=
  let ds := decimalDigits n n
  ⟨false, (ds.dropWhile (fun c => c == 0)).reverse, ds.length⟩

namespace json

/-- How `encoding/json` writes a float64 (`floatEncoder`):
`strconv.AppendFloat(b, f, fmt, -1, 64)` with the layout `fmt = 'f'`, and
`'e'` only when the value is not zero and its magnitude is below `1e-6` or at
least `1e21`, in which case an exponent of one digit is written without its
leading zero (`e-09` becomes `e-9`). -/
def float (f : Float64) : String :=
  let nd : Int := f.d.length
  if f.d.any (fun c => c != 0) ∧ (f.dp ≤ -6 ∨ f.dp ≥ 22) then
    let b := (fmt.fmtE f.neg f.d f.dp (nd - 1)).data
    let n := b.length
    if n ≥ 4 ∧ b.getD (n - 4) ' ' = 'e' ∧ (b.getD (n - 3) ' ' = '-' ∨ b.getD (n - 3) ' ' = '+')
        ∧ b.getD (n - 2) ' ' = '0' then
      String.mk (b.take (n - 2) ++ [b.getD (n - 1) ' '])
    else String.mk b
  else fmt.fmtF f.neg f.d f.dp (nd - f.dp).toNat

end json

/-- The request `{"action":"user_deposit","cid":"C1","uid":"U1",
"amount":1000000,"transaction_id":"T1","md5_key":"secret",
"api_url":"http://x"}`. -/
def depositRequest : GoMap :=
  [("action", .str "user_deposit"), ("cid", .str "C1"), ("uid", .str "U1"),
   ("amount", .num (Float64.ofNat 1000000)), ("transaction_id", .str "T1"),
   ("md5_key", .str "secret"), ("api_url", .str "http://x")]

/-! ## Lemmas: maps -/

theorem GoMap.get_nil (k : String) : GoMap.get [] k = .null := rfl

theorem GoMap.get_set (m : GoMap) (k : String) (v : Value) (j : String) :
    (m.set k v).get j = if j = k then v else m.get j := by
  unfold GoMap.get GoMap.set
  by_cases h : j = k
  · subst h
    simp [List.lookup]
  · have hb : (j == k) = false := by simpa using h
    simp only [List.lookup, hb, h, if_false]
    congr 1
    induction m with
    | nil => rfl
    | cons p m ih =>
      obtain ⟨a, b⟩ := p
      by_cases hak : a = k
      · subst hak
        have hja : (j == a) = false := by simpa using h
        simp [List.filter, List.lookup, hja, ih]
      · have hne : (a != k) = true := by simpa using hak
        simp only [List.filter, hne, List.lookup]
        cases (j == a) <;> simp [ih]

theorem GoMap.mem_keys (m : GoMap) (k : String) : k ∈ m.keys ↔ ∃ v, (k, v) ∈ m := by
  simp [GoMap.keys]

theorem GoMap.keys_nil : GoMap.keys [] = [] := rfl

theorem GoMap.mem_keys_set (m : GoMap) (k : String) (v : Value) (j : String) :
    j ∈ (m.set k v).keys ↔ j = k ∨ j ∈ m.keys := by
  simp only [GoMap.mem_keys, GoMap.set, List.mem_cons, List.mem_filter, Prod.mk.injEq]
  constructor
  · rintro ⟨x, h | ⟨h, -⟩⟩
    · exact Or.inl h.1
    · exact Or.inr ⟨x, h⟩
  · rintro (h | ⟨x, h⟩)
    · exact ⟨v, Or.inl ⟨h, rfl⟩⟩
    · by_cases hj : j = k
      · exact ⟨v, Or.inl ⟨hj, rfl⟩⟩
      · exact ⟨x, Or.inr ⟨h, by simpa using hj⟩⟩

theorem GoMap.get_of_not_mem_keys (m : GoMap) (k : String) (h : k ∉ m.keys) :
    m.get k = .null := by
  unfold GoMap.get
  have : m.lookup k = none := by
    rw [List.lookup_eq_none_iff]
    intro p hp
    have hne : k ≠ p.1 := by
      intro hk
      apply h
      rw [GoMap.mem_keys]
      exact ⟨p.2, by rw [hk]; exact hp⟩
    simpa using hne
  rw [this]

/-! ## Lemmas: the order of the keys -/

theorem lexLE_total : ∀ a b : List Nat, lexLE a b = true ∨ lexLE b a = true
  | [], _ => Or.inl rfl
  | _ :: _, [] => Or.inr rfl
  | x :: xs, y :: ys => by
    simp only [lexLE, Bool.or_eq_true, Bool.and_eq_true, decide_eq_true_eq, beq_iff_eq]
    rcases Nat.lt_trichotomy x y with h | h | h
    · exact Or.inl (Or.inl h)
    · rcases lexLE_total xs ys with h2 | h2
      · exact Or.inl (Or.inr ⟨h, h2⟩)
      · exact Or.inr (Or.inr ⟨h.symm, h2⟩)
    · exact Or.inr (Or.inl h)

theorem lexLE_trans : ∀ a b c : List Nat, lexLE a b = true → lexLE b c = true → lexLE a c = true
  | [], _, _ => fun _ _ => rfl
  | _ :: _, [], _ => fun h _ => by simp [lexLE] at h
  | _ :: _, _ :: _, [] => fun _ h => by simp [lexLE] at h
  | x :: xs, y :: ys, z :: zs => by
    simp only [lexLE, Bool.or_eq_true, Bool.and_eq_true, decide_eq_true_eq, beq_iff_eq]
    rintro (h1 | ⟨h1, h1'⟩) (h2 | ⟨h2, h2'⟩)
    · exact Or.inl (lt_trans h1 h2)
    · exact Or.inl (h2 ▸ h1)
    · exact Or.inl (h1 ▸ h2)
    · exact Or.inr ⟨h1.trans h2, lexLE_trans xs ys zs h1' h2'⟩

theorem strLE_total (a b : String) : strLE a b = true ∨ strLE b a = true :=
  lexLE_total _ _

theorem strLE_trans (a b c : String) (h1 : strLE a b = true) (h2 : strLE b c = true) :
    strLE a c = true :=
  lexLE_trans _ _ _ h1 h2

instance strLE_isTotal : IsTotal String (fun a b => strLE a b = true) :=
  ⟨strLE_total⟩

instance strLE_isTrans : IsTrans String (fun a b => strLE a b = true) :=
  ⟨strLE_trans⟩

theorem sort.Strings_perm (keys : List String) : (sort.Strings keys).Perm keys :=
  List.perm_insertionSort _ keys

theorem sort.Strings_sorted (keys : List String) :
    (sort.Strings keys).Pairwise (fun a b => strLE a b = true) :=
  List.sorted_insertionSort _ keys

theorem sort.Strings_strict (keys : List String) (h : keys.Nodup) :
    (sort.Strings keys).Pairwise (fun a b => strLE a b = true ∧ a ≠ b) :=
  (sort.Strings_sorted keys).and ((sort.Strings_perm keys).nodup_iff.mpr h)

theorem GoMap.keys_nodup (m : GoMap) : m.keys.Nodup :=
  List.nodup_dedup _

/-! ## Lemmas: the loop of `GenerateSign` -/

theorem GenerateSign.step_of_ne_null (formData : GoMap) (q : String) (i : Nat) (k : String)
    (h : formData.get k ≠ .null) :
    GenerateSign.step formData q (i, k)
      = (if i > 0 then q ++ "&" else q) ++ (k ++ "=" ++ fmt.v (formData.get k)) := by
  unfold GenerateSign.step
  cases hv : formData.get k <;> simp_all

theorem GenerateSign.step_of_null (formData : GoMap) (q : String) (i : Nat) (k : String)
    (h : formData.get k = .null) : GenerateSign.step formData q (i, k) = q := by
  unfold GenerateSign.step
  simp [h]

theorem GenerateSign.foldl_rest (formData : GoMap) :
    ∀ (ks : List String) (i : Nat) (q : String), 0 < i →
      (∀ k ∈ ks, formData.get k ≠ .null) →
      (ks.enumFrom i).foldl (GenerateSign.step formData) q
        = String.intercalate.go q "&" (ks.map (fun k => k ++ "=" ++ fmt.v (formData.get k)))
  | [], _, _, _, _ => rfl
  | k :: ks, i, q, hi, h => by
    have hk : formData.get k ≠ .null := h k (List.mem_cons_self _ _)
    simp only [List.enumFrom, List.foldl_cons, List.map_cons, String.intercalate.go]
    rw [GenerateSign.step_of_ne_null formData q i k hk, if_pos hi]
    exact GenerateSign.foldl_rest formData ks (i + 1) _ (Nat.succ_pos i)
      (fun j hj => h j (List.mem_cons_of_mem _ hj))

theorem GenerateSign.foldl_all (formData : GoMap) (ks : List String)
    (h : ∀ k ∈ ks, formData.get k ≠ .null) :
    ks.enum.foldl (GenerateSign.step formData) ""
      = "&".intercalate (ks.map (fun k => k ++ "=" ++ fmt.v (formData.get k))) := by
  cases ks with
  | nil => rfl
  | cons k ks =>
    have hk : formData.get k ≠ .null := h k (List.mem_cons_self _ _)
    simp only [List.enum, List.enumFrom, List.foldl_cons, List.map_cons, String.intercalate]
    rw [GenerateSign.step_of_ne_null formData "" 0 k hk]
    simp only [gt_iff_lt, lt_self_iff_false, if_false, String.empty_append]
    exact GenerateSign.foldl_rest formData ks 1 _ Nat.one_pos
      (fun j hj => h j (List.mem_cons_of_mem _ hj))

/-! ## Lemmas: the router -/

theorem copyFields_foldl_keys (req : GoMap) (j : String) :
    ∀ (fs : List String) (d : GoMap),
      j ∈ GoMap.keys (fs.foldl (fun data k => data.set k (req.get k)) d) ↔ j ∈ fs ∨ j ∈ d.keys
  | [], d => by simp
  | f :: fs, d => by
    rw [List.foldl_cons, copyFields_foldl_keys req j fs, GoMap.mem_keys_set, List.mem_cons]
    tauto

theorem copyFields_foldl_get (req : GoMap) (j : String) :
    ∀ (fs : List String) (d : GoMap),
      GoMap.get (fs.foldl (fun data k => data.set k (req.get k)) d) j
        = if j ∈ fs then req.get j else d.get j
  | [], d => by simp
  | f :: fs, d => by
    rw [List.foldl_cons, copyFields_foldl_get req j fs, GoMap.get_set]
    by_cases h1 : j ∈ fs
    · simp [h1]
    · by_cases h2 : j = f
      · subst h2
        simp [h1]
      · simp [h1, h2]

theorem mem_keys_copyFields (fs : List String) (req : GoMap) (j : String) :
    j ∈ (copyFields fs req).keys ↔ j ∈ fs := by
  unfold copyFields
  rw [copyFields_foldl_keys]
  simp [GoMap.keys_nil]

theorem get_copyFields (fs : List String) (req : GoMap) (j : String) :
    (copyFields fs req).get j = if j ∈ fs then req.get j else .null := by
  unfold copyFields
  rw [copyFields_foldl_get]
  rfl

theorem get_copyFields_of_mem (fs : List String) (req : GoMap) (j : String)
    (h : j ∈ (copyFields fs req).keys) : (copyFields fs req).get j = req.get j := by
  rw [get_copyFields, if_pos ((mem_keys_copyFields fs req j).mp h)]

/-- The fields of `game_init` that are copied whatever the amount. -/
theorem HandleSubmit.route_game_init (req : GoMap) :
    HandleSubmit.route "game_init" req = some ("/transfer/game/init",
      copyFields (["cid", "uid", "nickname", "channel_id", "sub_channel_id", "game_id",
        "language", "user_group", "vip_level"]
        ++ (if amountPositive req then ["amount", "transaction_id"] else [])) req) := by
  unfold amountPositive
  cases h : req.get "amount" with
  | num f =>
    cases hf : f.gt0 <;>
      simp [HandleSubmit.route, copyFields, h, hf]
  | _ => simp [HandleSubmit.route, copyFields, h]

theorem HandleSubmit.route_table (req : GoMap) (action path : String) (fields : List String)
    (ht : (action, path, fields) ∈ specTable) :
    HandleSubmit.route action req = some (path, copyFields (fields.filter (fun k =>
      action ≠ "game_init" ∨ (k ≠ "amount" ∧ k ≠ "transaction_id") ∨ amountPositive req)) req) := by
  simp only [specTable, List.mem_cons, Prod.mk.injEq, List.mem_singleton, List.not_mem_nil,
    or_false] at ht
  rcases ht with h | h | h | h | h | h | h | h <;> obtain ⟨rfl, rfl, rfl⟩ := h
  · rw [HandleSubmit.route_game_init]
    cases amountPositive req <;> simp
  all_goals simp [HandleSubmit.route, copyFields]

theorem HandleSubmit.route_none (req : GoMap) (action : String)
    (h : ∀ t ∈ specTable, t.1 ≠ action) : HandleSubmit.route action req = none := by
  simp only [specTable, List.mem_cons, List.mem_singleton, List.not_mem_nil, or_false,
    forall_eq_or_imp, forall_eq] at h
  obtain ⟨h1, h2, h3, h4, h5, h6, h7, h8⟩ := h
  simp [HandleSubmit.route, Ne.symm h1, Ne.symm h2, Ne.symm h3, Ne.symm h4, Ne.symm h5,
    Ne.symm h6, Ne.symm h7, Ne.symm h8]

theorem HandleSubmit.calls_of_route (w : World) (req : GoMap)
    (action md5Key apiUrl path : String) (data : GoMap)
    (ha : req.get "action" = .str action) (hk : req.get "md5_key" = .str md5Key)
    (hu : req.get "api_url" = .str apiUrl)
    (hr : HandleSubmit.route action req = some (path, data)) :
    (HandleSubmit w (.ok req)).calls
      = [⟨apiUrl ++ path, data.set "sign" (.str (GenerateSign data md5Key))⟩] := by
  simp only [HandleSubmit, ha, hk, hu, hr, CallApi]
  cases w.post ⟨apiUrl ++ path, data.set "sign" (.str (GenerateSign data md5Key))⟩ with
  | error e => rfl
  | ok resp =>
    simp only []
    cases w.unmarshal resp.2 <;> rfl

theorem specTable_reserved :
    ∀ t ∈ specTable, ∀ k ∈ ["sign", "md5_key", "api_url", "action"], k ∉ t.2.2 := by
  decide

theorem HandleSubmit.route_keys (req : GoMap) (action : String) (fields : List String)
    (k : String)
    (h : k ∈ (copyFields (fields.filter (fun k =>
      action ≠ "game_init" ∨ (k ≠ "amount" ∧ k ≠ "transaction_id") ∨ amountPositive req))
      req).keys) : k ∈ fields := by
  rw [mem_keys_copyFields] at h
  exact (List.mem_filter.mp h).1

/-! ## The signature string -/

/-- C1: on the payload `{cid: nil, uid: "U1"}` with the secret `secret` the
string that `GenerateSign` hashes starts with an `&`: it is `&uid=U1secret`,
while the canonical string of the specification is `uid=U1secret`, which is
also what is hashed for the payload `{uid: "U1"}` without the null-valued
key. -/
theorem GenerateSign_leading_separator :
    GenerateSign.queryString [("cid", .null), ("uid", .str "U1")] "secret" = "&uid=U1secret"
      ∧ canonicalString [("cid", .null), ("uid", .str "U1")] "secret" = "uid=U1secret"
      ∧ GenerateSign.queryString [("uid", .str "U1")] "secret" = "uid=U1secret" := by
  decide

/-- C2: for a payload in which no value is null, `GenerateSign` returns the hex
encoding of the MD5 digest of the UTF-8 bytes of the `key=value` pairs, taken
over the keys of the payload in strictly ascending order and joined by single
`&`, immediately followed by the secret. -/
theorem GenerateSign_md5_of_sorted_pairs (formData : GoMap) (md5Key : String)
    (h : ∀ k ∈ formData.keys, formData.get k ≠ .null) :
    ∃ ks : List String, ks.Perm formData.keys
      ∧ ks.Pairwise (fun a b => strLE a b = true ∧ a ≠ b)
      ∧ GenerateSign formData md5Key
          = hex.EncodeToString (md5.Sum (utf8
              ("&".intercalate (ks.map (fun k => k ++ "=" ++ fmt.v (formData.get k)))
                ++ md5Key))) := by
  refine ⟨sort.Strings formData.keys, sort.Strings_perm _,
    sort.Strings_strict _ (GoMap.keys_nodup formData), ?_⟩
  simp only [GenerateSign, GenerateSign.queryString]
  rw [GenerateSign.foldl_all formData (sort.Strings formData.keys)
    (fun k hk => h k ((sort.Strings_perm _).mem_iff.mp hk))]

set_option maxRecDepth 100000 in
/-- C2, on the payload `{b: 2, a: 1}` with the secret `k`: the string hashed is
`a=1&b=2k`. -/
theorem GenerateSign_md5_of_sorted_pairs_witness :
    (∀ k ∈ GoMap.keys [("b", .num ⟨false, [2], 1⟩), ("a", .num ⟨false, [1], 1⟩)],
        GoMap.get [("b", .num ⟨false, [2], 1⟩), ("a", .num ⟨false, [1], 1⟩)] k ≠ .null)
      ∧ (∃ ks : List String,
          ks.Perm (GoMap.keys [("b", .num ⟨false, [2], 1⟩), ("a", .num ⟨false, [1], 1⟩)])
          ∧ ks.Pairwise (fun a b => strLE a b = true ∧ a ≠ b)
          ∧ GenerateSign [("b", .num ⟨false, [2], 1⟩), ("a", .num ⟨false, [1], 1⟩)] "k"
              = hex.EncodeToString (md5.Sum (utf8
                  ("&".intercalate (ks.map (fun k => k ++ "=" ++ fmt.v
                    (GoMap.get [("b", .num ⟨false, [2], 1⟩), ("a", .num ⟨false, [1], 1⟩)] k)))
                    ++ "k"))))
      ∧ GenerateSign.queryString [("b", .num ⟨false, [2], 1⟩), ("a", .num ⟨false, [1], 1⟩)] "k"
          = "a=1&b=2k"
      ∧ GenerateSign [("b", .num ⟨false, [2], 1⟩), ("a", .num ⟨false, [1], 1⟩)] "k"
          = "af97cb1e07cd9f9f1279e0bae215015d" :=
  ⟨by decide, GenerateSign_md5_of_sorted_pairs _ "k" (by decide), by decide, by decide⟩

/-! ## The router and the outgoing request -/

/-- C3, as stated, fails: for the request `user_balance` without `cid`, the
payload that `HandleSubmit` builds has the key `cid`, bound to `nil`, although
`cid` is absent from the request, and the key is in the body that is posted. -/
theorem HandleSubmit_keeps_absent_field :
    balanceRequestNoCid.get "cid" = .null
      ∧ HandleSubmit.route "user_balance" balanceRequestNoCid
          = some ("/transfer/user/balance", [("uid", .str "U1"), ("cid", .null)])
      ∧ "cid" ∈ GoMap.keys [("uid", .str "U1"), ("cid", .null)]
      ∧ (HandleSubmit World.offline (.ok balanceRequestNoCid)).calls.map
          (fun c => (c.body.keys, c.body.get "cid")) = [(["sign", "uid", "cid"], .null)] := by
  decide

/-- C3, amended: for every recognised action and every request, each field of
the allow-list of the action (for `game_init`, `amount` and `transaction_id`
only when the amount is a number above 0) that is missing from the request, or
null there, is a key of the payload that `HandleSubmit` builds and of the body
it posts, bound to `nil`. -/
theorem HandleSubmit_null_field_kept (w : World) (req : GoMap)
    (action md5Key apiUrl path : String) (fields : List String)
    (ha : req.get "action" = .str action) (hk : req.get "md5_key" = .str md5Key)
    (hu : req.get "api_url" = .str apiUrl) (ht : (action, path, fields) ∈ specTable) :
    ∃ data body : GoMap, HandleSubmit.route action req = some (path, data)
      ∧ (HandleSubmit w (.ok req)).calls = [⟨apiUrl ++ path, body⟩]
      ∧ ∀ k ∈ fields,
          (action = "game_init" → k = "amount" ∨ k = "transaction_id" →
            amountPositive req = true) →
          req.get k = .null →
          k ∈ data.keys ∧ data.get k = .null ∧ k ∈ body.keys ∧ body.get k = .null := by
  have hr := HandleSubmit.route_table req action path fields ht
  refine ⟨_, _, hr, HandleSubmit.calls_of_route w req action md5Key apiUrl path _ ha hk hu hr, ?_⟩
  intro k hkf hcond hnull
  have hmem : k ∈ (copyFields (fields.filter (fun k =>
      action ≠ "game_init" ∨ (k ≠ "amount" ∧ k ≠ "transaction_id") ∨ amountPositive req))
      req).keys := by
    rw [mem_keys_copyFields, List.mem_filter]
    refine ⟨hkf, ?_⟩
    simp only [decide_eq_true_eq]
    by_cases hg : action = "game_init"
    · by_cases hc : k = "amount" ∨ k = "transaction_id"
      · exact Or.inr (Or.inr (hcond hg hc))
      · exact Or.inr (Or.inl (not_or.mp hc))
    · exact Or.inl hg
  have hget := get_copyFields_of_mem _ req k hmem
  have hsign : k ≠ "sign" := by
    rintro rfl
    simp only [specTable, List.mem_cons, Prod.mk.injEq, List.mem_singleton, List.not_mem_nil,
      or_false] at ht
    rcases ht with h | h | h | h | h | h | h | h <;> obtain ⟨-, -, rfl⟩ := h <;>
      simp at hkf
  refine ⟨hmem, hget.trans hnull, (GoMap.mem_keys_set _ _ _ _).mpr (Or.inr hmem), ?_⟩
  rw [GoMap.get_set, if_neg hsign]
  exact hget.trans hnull

/-- C3, amended, on the request `user_balance` without `cid`. -/
theorem HandleSubmit_null_field_kept_witness :
    balanceRequestNoCid.get "action" = .str "user_balance"
      ∧ balanceRequestNoCid.get "md5_key" = .str "secret"
      ∧ balanceRequestNoCid.get "api_url" = .str "http://x"
      ∧ ("user_balance", "/transfer/user/balance", ["cid", "uid"]) ∈ specTable
      ∧ ∃ data body : GoMap,
          HandleSubmit.route "user_balance" balanceRequestNoCid
            = some ("/transfer/user/balance", data)
          ∧ (HandleSubmit World.offline (.ok balanceRequestNoCid)).calls
              = [⟨"http://x" ++ "/transfer/user/balance", body⟩]
          ∧ ∀ k ∈ ["cid", "uid"],
              ("user_balance" = "game_init" → k = "amount" ∨ k = "transaction_id" →
                amountPositive balanceRequestNoCid = true) →
              balanceRequestNoCid.get k = .null →
              k ∈ data.keys ∧ data.get k = .null ∧ k ∈ body.keys ∧ body.get k = .null :=
  ⟨by decide, by decide, by decide, by decide,
    HandleSubmit_null_field_kept World.offline balanceRequestNoCid "user_balance" "secret"
      "http://x" "/transfer/user/balance" ["cid", "uid"] (by decide) (by decide) (by decide)
      (by decide)⟩

/-- C4: for every request whose action is a row of the table of recognised
actions, and whose `md5_key` and `api_url` are strings, `HandleSubmit` issues
one POST, and its URL is `api_url` followed by the path of the row. -/
theorem HandleSubmit_posts_to_action_path (w : World) (req : GoMap)
    (action md5Key apiUrl path : String) (fields : List String)
    (ha : req.get "action" = .str action) (hk : req.get "md5_key" = .str md5Key)
    (hu : req.get "api_url" = .str apiUrl) (ht : (action, path, fields) ∈ specTable) :
    ∃ body : GoMap, (HandleSubmit w (.ok req)).calls = [⟨apiUrl ++ path, body⟩] :=
  ⟨_, HandleSubmit.calls_of_route w req action md5Key apiUrl path _ ha hk hu
    (HandleSubmit.route_table req action path fields ht)⟩

/-- C4, on a `game_init` request. -/
theorem HandleSubmit_posts_to_action_path_witness :
    gameInitRequest.get "action" = .str "game_init"
      ∧ gameInitRequest.get "md5_key" = .str "secret"
      ∧ gameInitRequest.get "api_url" = .str "http://x"
      ∧ ("game_init", "/transfer/game/init",
          ["cid", "uid", "nickname", "channel_id", "sub_channel_id", "game_id", "language",
           "user_group", "vip_level", "amount", "transaction_id"]) ∈ specTable
      ∧ ∃ body : GoMap, (HandleSubmit World.offline (.ok gameInitRequest)).calls
          = [⟨"http://x" ++ "/transfer/game/init", body⟩] :=
  ⟨by decide, by decide, by decide, by decide,
    HandleSubmit_posts_to_action_path World.offline gameInitRequest "game_init" "secret"
      "http://x" "/transfer/game/init"
      ["cid", "uid", "nickname", "channel_id", "sub_channel_id", "game_id", "language",
       "user_group", "vip_level", "amount", "transaction_id"]
      (by decide) (by decide) (by decide) (by decide)⟩

/-- C5: for every `game_init` request (with string `md5_key` and `api_url`):
when `amount` is absent or null, or a number that is not above 0, neither
`amount` nor `transaction_id` is a key of the payload that `HandleSubmit`
builds; when `amount` is a number above 0, both are keys of the payload, and
`amount` carries the amount of the request. -/
theorem HandleSubmit_game_init_amount (w : World) (req : GoMap) (md5Key apiUrl : String)
    (ha : req.get "action" = .str "game_init") (hk : req.get "md5_key" = .str md5Key)
    (hu : req.get "api_url" = .str apiUrl) :
    ∃ data : GoMap, HandleSubmit.route "game_init" req = some ("/transfer/game/init", data)
      ∧ (HandleSubmit w (.ok req)).calls
          = [⟨apiUrl ++ "/transfer/game/init",
              data.set "sign" (.str (GenerateSign data md5Key))⟩]
      ∧ ((req.get "amount" = .null ∨ ∃ f, req.get "amount" = .num f ∧ f.gt0 = false) →
          "amount" ∉ data.keys ∧ "transaction_id" ∉ data.keys)
      ∧ (∀ f, req.get "amount" = .num f → f.gt0 = true →
          "amount" ∈ data.keys ∧ "transaction_id" ∈ data.keys
            ∧ data.get "amount" = .num f) := by
  have hr := HandleSubmit.route_game_init req
  refine ⟨_, hr, HandleSubmit.calls_of_route w req "game_init" md5Key apiUrl _ _ ha hk hu hr,
    ?_, ?_⟩
  · intro h
    have hp : amountPositive req = false := by
      unfold amountPositive
      rcases h with h | ⟨f, h, hf⟩
      · rw [h]
      · rw [h]
        exact hf
    rw [hp, mem_keys_copyFields, mem_keys_copyFields]
    decide
  · intro f h hf
    have hp : amountPositive req = true := by
      unfold amountPositive
      rw [h]
      exact hf
    rw [hp, mem_keys_copyFields, mem_keys_copyFields, get_copyFields]
    refine ⟨by decide, by decide, ?_⟩
    rw [if_pos (by decide), h]

/-- C5, on a `game_init` request with the amount 5. -/
theorem HandleSubmit_game_init_amount_witness :
    gameInitRequest.get "action" = .str "game_init"
      ∧ gameInitRequest.get "md5_key" = .str "secret"
      ∧ gameInitRequest.get "api_url" = .str "http://x"
      ∧ ∃ data : GoMap,
          HandleSubmit.route "game_init" gameInitRequest = some ("/transfer/game/init", data)
          ∧ (HandleSubmit World.offline (.ok gameInitRequest)).calls
              = [⟨"http://x" ++ "/transfer/game/init",
                  data.set "sign" (.str (GenerateSign data "secret"))⟩]
          ∧ ((gameInitRequest.get "amount" = .null
                ∨ ∃ f, gameInitRequest.get "amount" = .num f ∧ f.gt0 = false) →
              "amount" ∉ data.keys ∧ "transaction_id" ∉ data.keys)
          ∧ (∀ f, gameInitRequest.get "amount" = .num f → f.gt0 = true →
              "amount" ∈ data.keys ∧ "transaction_id" ∈ data.keys
                ∧ data.get "amount" = .num f) :=
  ⟨by decide, by decide, by decide,
    HandleSubmit_game_init_amount World.offline gameInitRequest "secret" "http://x"
      (by decide) (by decide) (by decide)⟩

/-- C6: for every request whose action is a string that is no row of the table
of recognised actions, and whose `md5_key` and `api_url` are strings,
`HandleSubmit` issues no POST and answers with status 400. -/
theorem HandleSubmit_unknown_action (w : World) (req : GoMap) (action md5Key apiUrl : String)
    (ha : req.get "action" = .str action) (hk : req.get "md5_key" = .str md5Key)
    (hu : req.get "api_url" = .str apiUrl) (hn : ∀ t ∈ specTable, t.1 ≠ action) :
    (HandleSubmit w (.ok req)).calls = []
      ∧ (HandleSubmit w (.ok req)).response = some (http.Error "Invalid action provided" 400)
      ∧ (http.Error "Invalid action provided" 400).status = 400 := by
  have hr := HandleSubmit.route_none req action hn
  refine ⟨?_, ?_, rfl⟩ <;> simp only [HandleSubmit, ha, hk, hu, hr]

/-- C6, on a request with the action `foo`. -/
theorem HandleSubmit_unknown_action_witness :
    fooRequest.get "action" = .str "foo"
      ∧ fooRequest.get "md5_key" = .str "secret"
      ∧ fooRequest.get "api_url" = .str "http://x"
      ∧ (∀ t ∈ specTable, t.1 ≠ "foo")
      ∧ (HandleSubmit World.offline (.ok fooRequest)).calls = []
      ∧ (HandleSubmit World.offline (.ok fooRequest)).response
          = some (http.Error "Invalid action provided" 400)
      ∧ (http.Error "Invalid action provided" 400).status = 400 :=
  ⟨by decide, by decide, by decide, by decide,
    HandleSubmit_unknown_action World.offline fooRequest "foo" "secret" "http://x"
      (by decide) (by decide) (by decide) (by decide)⟩

/-- C7: on the request `{"md5_key":"secret","api_url":"http://x"}`, a JSON
object without `action`, the type assertion of line 94 panics: `HandleSubmit`
writes no response, so none with status 400, and issues no POST. -/
theorem HandleSubmit_missing_action_panics (w : World) :
    (HandleSubmit w (.ok noActionRequest)).response = none
      ∧ (HandleSubmit w (.ok noActionRequest)).calls = [] :=
  ⟨rfl, rfl⟩

set_option maxRecDepth 100000 in
/-- C8, as stated, fails: for the request `user_balance` with `cid` `C1`, `uid`
`U1` and the secret `secret`, the string that is hashed is not
`cid=C1uid=U1secret`, and the `sign` that is posted is not the MD5 hex digest
of that string. -/
theorem HandleSubmit_balance_not_unseparated :
    HandleSubmit.route "user_balance" balanceRequest
        = some ("/transfer/user/balance", [("uid", .str "U1"), ("cid", .str "C1")])
      ∧ GenerateSign.queryString [("uid", .str "U1"), ("cid", .str "C1")] "secret"
          ≠ "cid=C1uid=U1secret"
      ∧ (HandleSubmit World.offline (.ok balanceRequest)).calls.map
          (fun c => c.body.get "sign")
          ≠ [.str (hex.EncodeToString (md5.Sum (utf8 "cid=C1uid=U1secret")))] := by
  decide

set_option maxRecDepth 100000 in
/-- C8, amended: for the request `user_balance` with `cid` `C1`, `uid` `U1`, the
secret `secret` and the base URL `http://x`, `HandleSubmit` posts to
`http://x/transfer/user/balance` a body whose keys are exactly `cid`, `uid`
and `sign`, with `cid` `C1`, `uid` `U1` and `sign` the MD5 hex digest of the
string `cid=C1&uid=U1secret`, which is the string that is hashed. -/
theorem HandleSubmit_balance_end_to_end (w : World) :
    ∃ data body : GoMap,
      HandleSubmit.route "user_balance" balanceRequest = some ("/transfer/user/balance", data)
      ∧ (HandleSubmit w (.ok balanceRequest)).calls
          = [⟨"http://x/transfer/user/balance", body⟩]
      ∧ (∀ k, k ∈ body.keys ↔ k = "cid" ∨ k = "uid" ∨ k = "sign")
      ∧ body.get "cid" = .str "C1"
      ∧ body.get "uid" = .str "U1"
      ∧ body.get "sign" = .str (hex.EncodeToString (md5.Sum (utf8 "cid=C1&uid=U1secret")))
      ∧ GenerateSign.queryString data "secret" = "cid=C1&uid=U1secret"
      ∧ GenerateSign data "secret" = "5a2f89af24556dfe35c8d690130c53a1" := by
  refine ⟨[("uid", .str "U1"), ("cid", .str "C1")],
    [("sign", .str (GenerateSign [("uid", .str "U1"), ("cid", .str "C1")] "secret")),
      ("uid", .str "U1"), ("cid", .str "C1")], by decide, ?_, ?_, by decide, by decide,
    by decide, by decide, by decide⟩
  · rw [HandleSubmit.calls_of_route w balanceRequest "user_balance" "secret" "http://x"
      "/transfer/user/balance" [("uid", .str "U1"), ("cid", .str "C1")]
      (by decide) (by decide) (by decide) (by decide)]
    rfl
  · intro k
    have hk : GoMap.keys
        [("sign", .str (GenerateSign [("uid", .str "U1"), ("cid", .str "C1")] "secret")),
          ("uid", .str "U1"), ("cid", .str "C1")] = ["sign", "uid", "cid"] := by
      decide
    rw [hk]
    simp only [List.mem_cons, List.mem_singleton, List.not_mem_nil, or_false]
    tauto

/-- C9: for every routed request, the body that `CallApi` posts is the payload
of the router with the one key `sign` added: `sign` is no key of the payload
(no allow-list holds it), so no pair of the hashed string comes from it; in
the body it is bound to `GenerateSign` of the payload as it was before, and
every other key is bound as in the payload. -/
theorem CallApi_adds_only_sign (w : World) (req : GoMap)
    (action md5Key apiUrl path : String) (fields : List String)
    (ha : req.get "action" = .str action) (hk : req.get "md5_key" = .str md5Key)
    (hu : req.get "api_url" = .str apiUrl) (ht : (action, path, fields) ∈ specTable) :
    ∃ data body : GoMap, HandleSubmit.route action req = some (path, data)
      ∧ (HandleSubmit w (.ok req)).calls = [⟨apiUrl ++ path, body⟩]
      ∧ "sign" ∉ data.keys
      ∧ "sign" ∉ sort.Strings data.keys
      ∧ body.get "sign" = .str (GenerateSign data md5Key)
      ∧ (∀ k, k ≠ "sign" → body.get k = data.get k)
      ∧ (∀ k, k ∈ body.keys ↔ k = "sign" ∨ k ∈ data.keys)
      ∧ (∀ t ∈ specTable, "sign" ∉ t.2.2) := by
  have hr := HandleSubmit.route_table req action path fields ht
  have hs : "sign" ∉ (copyFields (fields.filter (fun k =>
      action ≠ "game_init" ∨ (k ≠ "amount" ∧ k ≠ "transaction_id") ∨ amountPositive req))
      req).keys :=
    fun h => specTable_reserved _ ht "sign" (by decide)
      (HandleSubmit.route_keys req action fields "sign" h)
  refine ⟨_, _, hr, HandleSubmit.calls_of_route w req action md5Key apiUrl path _ ha hk hu hr,
    hs, fun h => hs ((sort.Strings_perm _).mem_iff.mp h), ?_, ?_, ?_, ?_⟩
  · rw [GoMap.get_set, if_pos rfl]
  · intro k hne
    rw [GoMap.get_set, if_neg hne]
  · intro k
    exact GoMap.mem_keys_set _ _ _ _
  · intro t h
    exact specTable_reserved t h "sign" (by decide)

/-- C9, on the request `user_balance` with `cid` `C1` and `uid` `U1`. -/
theorem CallApi_adds_only_sign_witness :
    balanceRequest.get "action" = .str "user_balance"
      ∧ balanceRequest.get "md5_key" = .str "secret"
      ∧ balanceRequest.get "api_url" = .str "http://x"
      ∧ ("user_balance", "/transfer/user/balance", ["cid", "uid"]) ∈ specTable
      ∧ ∃ data body : GoMap,
          HandleSubmit.route "user_balance" balanceRequest
            = some ("/transfer/user/balance", data)
          ∧ (HandleSubmit World.offline (.ok balanceRequest)).calls
              = [⟨"http://x" ++ "/transfer/user/balance", body⟩]
          ∧ "sign" ∉ data.keys
          ∧ "sign" ∉ sort.Strings data.keys
          ∧ body.get "sign" = .str (GenerateSign data "secret")
          ∧ (∀ k, k ≠ "sign" → body.get k = data.get k)
          ∧ (∀ k, k ∈ body.keys ↔ k = "sign" ∨ k ∈ data.keys)
          ∧ (∀ t ∈ specTable, "sign" ∉ t.2.2) :=
  ⟨by decide, by decide, by decide, by decide,
    CallApi_adds_only_sign World.offline balanceRequest "user_balance" "secret" "http://x"
      "/transfer/user/balance" ["cid", "uid"] (by decide) (by decide) (by decide) (by decide)⟩

/-- C10: for every recognised action and every request, every key of the
payload that `HandleSubmit` builds is in the allow-list of the action and is
bound to the value the request has for it; `md5_key`, `api_url` and `action`
are no keys of the payload. -/
theorem HandleSubmit_payload_is_projection (w : World) (req : GoMap)
    (action md5Key apiUrl path : String) (fields : List String)
    (ha : req.get "action" = .str action) (hk : req.get "md5_key" = .str md5Key)
    (hu : req.get "api_url" = .str apiUrl) (ht : (action, path, fields) ∈ specTable) :
    ∃ data : GoMap, HandleSubmit.route action req = some (path, data)
      ∧ (HandleSubmit w (.ok req)).calls
          = [⟨apiUrl ++ path, data.set "sign" (.str (GenerateSign data md5Key))⟩]
      ∧ (∀ k ∈ data.keys, k ∈ fields ∧ data.get k = req.get k)
      ∧ "md5_key" ∉ data.keys ∧ "api_url" ∉ data.keys ∧ "action" ∉ data.keys := by
  have hr := HandleSubmit.route_table req action path fields ht
  have hsub := HandleSubmit.route_keys req action fields
  refine ⟨_, hr, HandleSubmit.calls_of_route w req action md5Key apiUrl path _ ha hk hu hr,
    fun k h => ⟨hsub k h, get_copyFields_of_mem _ req k h⟩,
    fun h => specTable_reserved _ ht "md5_key" (by decide) (hsub _ h),
    fun h => specTable_reserved _ ht "api_url" (by decide) (hsub _ h),
    fun h => specTable_reserved _ ht "action" (by decide) (hsub _ h)⟩

/-- C10, on a `game_init` request with the amount 5. -/
theorem HandleSubmit_payload_is_projection_witness :
    gameInitRequest.get "action" = .str "game_init"
      ∧ gameInitRequest.get "md5_key" = .str "secret"
      ∧ gameInitRequest.get "api_url" = .str "http://x"
      ∧ ("game_init", "/transfer/game/init",
          ["cid", "uid", "nickname", "channel_id", "sub_channel_id", "game_id", "language",
           "user_group", "vip_level", "amount", "transaction_id"]) ∈ specTable
      ∧ ∃ data : GoMap,
          HandleSubmit.route "game_init" gameInitRequest = some ("/transfer/game/init", data)
          ∧ (HandleSubmit World.offline (.ok gameInitRequest)).calls
              = [⟨"http://x" ++ "/transfer/game/init",
                  data.set "sign" (.str (GenerateSign data "secret"))⟩]
          ∧ (∀ k ∈ data.keys,
              k ∈ ["cid", "uid", "nickname", "channel_id", "sub_channel_id", "game_id",
                "language", "user_group", "vip_level", "amount", "transaction_id"]
              ∧ data.get k = gameInitRequest.get k)
          ∧ "md5_key" ∉ data.keys ∧ "api_url" ∉ data.keys ∧ "action" ∉ data.keys :=
  ⟨by decide, by decide, by decide, by decide,
    HandleSubmit_payload_is_projection World.offline gameInitRequest "game_init" "secret"
      "http://x" "/transfer/game/init"
      ["cid", "uid", "nickname", "channel_id", "sub_channel_id", "game_id", "language",
       "user_group", "vip_level", "amount", "transaction_id"]
      (by decide) (by decide) (by decide) (by decide)⟩

/-! ## The answer of the downstream API -/

theorem HandleSubmit.response_of_route (w : World) (req : GoMap)
    (action md5Key apiUrl path : String) (data : GoMap)
    (ha : req.get "action" = .str action) (hk : req.get "md5_key" = .str md5Key)
    (hu : req.get "api_url" = .str apiUrl)
    (hr : HandleSubmit.route action req = some (path, data)) :
    (HandleSubmit w (.ok req)).response
      = some (match w.post
            ⟨apiUrl ++ path, data.set "sign" (.str (GenerateSign data md5Key))⟩ with
          | .error err => http.Error err 500
          | .ok resp =>
            match w.unmarshal resp.2 with
            | .error err => http.Error err 500
            | .ok (some m) => ⟨200, "application/json", .json [("apiResponse", .obj m)]⟩
            | .ok none => ⟨200, "application/json", .json [("apiResponse", .null)]⟩) := by
  simp only [HandleSubmit, ha, hk, hu, hr, CallApi]
  cases w.post ⟨apiUrl ++ path, data.set "sign" (.str (GenerateSign data md5Key))⟩ with
  | error e => rfl
  | ok resp =>
    simp only []
    cases w.unmarshal resp.2 with
    | error e => rfl
    | ok m => cases m <;> rfl

/-- C11: for every routed request, `HandleSubmit` answers with status 500
exactly when the POST fails or `json.Unmarshal` of the downstream body into a
map fails, and the body of the answer is then the text of the error; in every
other case, whatever the status code of the downstream answer, it answers with
status 200 and the JSON object whose one key `apiResponse` holds the parsed
map. -/
theorem HandleSubmit_downstream_outcome (w : World) (req : GoMap)
    (action md5Key apiUrl path : String) (fields : List String)
    (ha : req.get "action" = .str action) (hk : req.get "md5_key" = .str md5Key)
    (hu : req.get "api_url" = .str apiUrl) (ht : (action, path, fields) ∈ specTable) :
    ∃ (call : Call) (r : Response), (HandleSubmit w (.ok req)).calls = [call]
      ∧ call.url = apiUrl ++ path
      ∧ (HandleSubmit w (.ok req)).response = some r
      ∧ (r.status = 500 ↔
          ((∃ err, w.post call = .error err)
            ∨ ∃ st raw err, w.post call = .ok (st, raw) ∧ w.unmarshal raw = .error err))
      ∧ (∀ err, w.post call = .error err →
          r = ⟨500, "text/plain; charset=utf-8", .text (err ++ "\n")⟩)
      ∧ (∀ st raw err, w.post call = .ok (st, raw) → w.unmarshal raw = .error err →
          r = ⟨500, "text/plain; charset=utf-8", .text (err ++ "\n")⟩)
      ∧ (∀ st raw m, w.post call = .ok (st, raw) → w.unmarshal raw = .ok (some m) →
          r = ⟨200, "application/json", .json [("apiResponse", .obj m)]⟩)
      ∧ (∀ st raw, w.post call = .ok (st, raw) → w.unmarshal raw = .ok none →
          r = ⟨200, "application/json", .json [("apiResponse", .null)]⟩) := by
  have hr := HandleSubmit.route_table req action path fields ht
  have hc := HandleSubmit.calls_of_route w req action md5Key apiUrl path _ ha hk hu hr
  have hresp := HandleSubmit.response_of_route w req action md5Key apiUrl path _ ha hk hu hr
  refine ⟨_, _, hc, rfl, hresp, ?_⟩
  cases hp : w.post ⟨apiUrl ++ path, _⟩ with
  | error e =>
    refine ⟨⟨fun _ => Or.inl ⟨e, rfl⟩, fun _ => rfl⟩, ?_, ?_, ?_, ?_⟩
    · intro err h
      cases h
      rfl
    · intro st raw err h
      cases h
    · intro st raw m h
      cases h
    · intro st raw h
      cases h
  | ok resp =>
    obtain ⟨st, raw⟩ := resp
    simp only []
    cases hm : w.unmarshal raw with
    | error e =>
      refine ⟨⟨fun _ => Or.inr ⟨st, raw, e, rfl, hm⟩, fun _ => rfl⟩, ?_, ?_, ?_, ?_⟩
      · intro err h
        cases h
      · intro st2 raw2 err h h2
        cases h
        rw [hm] at h2
        cases h2
        rfl
      · intro st2 raw2 m h h2
        cases h
        rw [hm] at h2
        cases h2
      · intro st2 raw2 h h2
        cases h
        rw [hm] at h2
        cases h2
    | ok m =>
      have hne : ¬ ((∃ err, (Except.ok (st, raw) : Except String (Nat × String)) = .error err)
          ∨ ∃ st2 raw2 err, (Except.ok (st, raw) : Except String (Nat × String))
              = .ok (st2, raw2) ∧ w.unmarshal raw2 = .error err) := by
        rintro (⟨err, h⟩ | ⟨st2, raw2, err, h, h2⟩)
        · cases h
        · cases h
          rw [hm] at h2
          cases h2
      cases m with
      | none =>
        refine ⟨⟨fun h => absurd (show (200 : Nat) = 500 from h) (by decide),
          fun h => absurd h hne⟩, ?_, ?_, ?_, ?_⟩
        · intro err h
          cases h
        · intro st2 raw2 err h h2
          cases h
          rw [hm] at h2
          cases h2
        · intro st2 raw2 m h h2
          cases h
          rw [hm] at h2
          cases h2
        · intro st2 raw2 h h2
          rfl
      | some m =>
        refine ⟨⟨fun h => absurd (show (200 : Nat) = 500 from h) (by decide),
          fun h => absurd h hne⟩, ?_, ?_, ?_, ?_⟩
        · intro err h
          cases h
        · intro st2 raw2 err h h2
          cases h
          rw [hm] at h2
          cases h2
        · intro st2 raw2 m2 h h2
          cases h
          rw [hm] at h2
          cases h2
          rfl
        · intro st2 raw2 h h2
          cases h
          rw [hm] at h2
          cases h2

/-- C11, on the request `user_balance` when the downstream API cannot be
reached; and when it answers with the status 404 and a body that parses, the
answer has status 200. -/
theorem HandleSubmit_downstream_outcome_witness :
    balanceRequest.get "action" = .str "user_balance"
      ∧ balanceRequest.get "md5_key" = .str "secret"
      ∧ balanceRequest.get "api_url" = .str "http://x"
      ∧ ("user_balance", "/transfer/user/balance", ["cid", "uid"]) ∈ specTable
      ∧ (∃ (call : Call) (r : Response),
          (HandleSubmit World.offline (.ok balanceRequest)).calls = [call]
          ∧ call.url = "http://x" ++ "/transfer/user/balance"
          ∧ (HandleSubmit World.offline (.ok balanceRequest)).response = some r
          ∧ (r.status = 500 ↔
              ((∃ err, World.offline.post call = .error err)
                ∨ ∃ st raw err, World.offline.post call = .ok (st, raw)
                    ∧ World.offline.unmarshal raw = .error err))
          ∧ (∀ err, World.offline.post call = .error err →
              r = ⟨500, "text/plain; charset=utf-8", .text (err ++ "\n")⟩)
          ∧ (∀ st raw err, World.offline.post call = .ok (st, raw) →
              World.offline.unmarshal raw = .error err →
              r = ⟨500, "text/plain; charset=utf-8", .text (err ++ "\n")⟩)
          ∧ (∀ st raw m, World.offline.post call = .ok (st, raw) →
              World.offline.unmarshal raw = .ok (some m) →
              r = ⟨200, "application/json", .json [("apiResponse", .obj m)]⟩)
          ∧ (∀ st raw, World.offline.post call = .ok (st, raw) →
              World.offline.unmarshal raw = .ok none →
              r = ⟨200, "application/json", .json [("apiResponse", .null)]⟩))
      ∧ (HandleSubmit World.offline (.ok balanceRequest)).response.map (fun r => r.status)
          = some 500
      ∧ (HandleSubmit World.notFound (.ok balanceRequest)).response.map (fun r => r.status)
          = some 200 :=
  ⟨by decide, by decide, by decide, by decide,
    HandleSubmit_downstream_outcome World.offline balanceRequest "user_balance" "secret"
      "http://x" "/transfer/user/balance" ["cid", "uid"] (by decide) (by decide) (by decide)
      (by decide),
    by decide, by decide⟩

/-! ## The shape of the signature -/

theorem hex.hextable_getD (i : Nat) (h : i < 16) : hex.hextable.getD i '0' ∈ hex.hextable := by
  have hall : ∀ j ∈ List.range 16, hex.hextable.getD j '0' ∈ hex.hextable := by decide
  exact hall i (List.mem_range.mpr h)

theorem hex.EncodeToString_length (src : List Nat) :
    (hex.EncodeToString src).length = 2 * src.length := by
  unfold hex.EncodeToString
  rw [String.length_mk]
  induction src with
  | nil => rfl
  | cons b bs ih =>
    simp only [List.flatMap_cons, List.length_append, List.length_cons, List.length_nil, ih]
    omega

theorem hex.EncodeToString_mem (src : List Nat) (c : Char)
    (h : c ∈ (hex.EncodeToString src).data) : c ∈ hex.hextable := by
  unfold hex.EncodeToString at h
  simp only [List.mem_flatMap, List.mem_cons, List.mem_singleton, List.not_mem_nil,
    or_false] at h
  obtain ⟨b, -, rfl | rfl⟩ := h
  · exact hex.hextable_getD _ (Nat.mod_lt _ (by decide))
  · exact hex.hextable_getD _ (Nat.mod_lt _ (by decide))

theorem md5.Sum_length (data : List Nat) : (md5.Sum data).length = 16 := by
  simp [md5.Sum, md5.bytes32]

/-- C12: for every payload and every secret, the value that `GenerateSign`
returns has exactly 32 characters, each of them one of the lowercase
hexadecimal digits `0123456789abcdef`. -/
theorem GenerateSign_is_32_hex_digits (formData : GoMap) (md5Key : String) :
    (GenerateSign formData md5Key).length = 32
      ∧ ∀ c ∈ (GenerateSign formData md5Key).data, c ∈ "0123456789abcdef".data := by
  refine ⟨?_, fun c h => hex.EncodeToString_mem _ c h⟩
  unfold GenerateSign
  rw [hex.EncodeToString_length, md5.Sum_length]

/-! ## Numbers in the signature string -/

/-- C13: the amount 1000000 of a `user_deposit` request is written into the
string that `GenerateSign` hashes as `1e+06`, with an exponent, while the JSON
body carries the digits `1000000`; the number 2 is written as `2` and a string
value as it is. -/
theorem GenerateSign_million_has_exponent :
    HandleSubmit.route "user_deposit" depositRequest
        = some ("/transfer/user/deposit",
            [("transaction_id", .str "T1"), ("amount", .num (Float64.ofNat 1000000)),
             ("uid", .str "U1"), ("cid", .str "C1")])
      ∧ GenerateSign.queryString
          [("transaction_id", .str "T1"), ("amount", .num (Float64.ofNat 1000000)),
           ("uid", .str "U1"), ("cid", .str "C1")] "secret"
          = "amount=1e+06&cid=C1&transaction_id=T1&uid=U1secret"
      ∧ fmt.v (.num (Float64.ofNat 1000000)) = "1e+06"
      ∧ json.float (Float64.ofNat 1000000) = "1000000"
      ∧ fmt.v (.num (Float64.ofNat 2)) = "2"
      ∧ fmt.v (.str "T1") = "T1" := by
  decide

/-! ## Determinism of the signature -/

theorem lexLE_antisymm : ∀ a b : List Nat, lexLE a b = true → lexLE b a = true → a = b
  | [], [] => fun _ _ => rfl
  | [], _ :: _ => fun _ h => by simp [lexLE] at h
  | _ :: _, [] => fun h _ => by simp [lexLE] at h
  | x :: xs, y :: ys => by
    simp only [lexLE, Bool.or_eq_true, Bool.and_eq_true, decide_eq_true_eq, beq_iff_eq]
    rintro (h1 | ⟨h1, h1'⟩) (h2 | ⟨h2, h2'⟩)
    · exact absurd h1 (Nat.lt_asymm h2)
    · exact absurd h1 (h2 ▸ Nat.lt_irrefl _)
    · exact absurd h2 (h1 ▸ Nat.lt_irrefl _)
    · rw [h1, lexLE_antisymm xs ys h1' h2']

theorem Char.toNat_injective : Function.Injective Char.toNat := by
  intro a b h
  apply Char.ext
  apply UInt32.ext
  exact h

theorem strLE_antisymm (a b : String) (h1 : strLE a b = true) (h2 : strLE b a = true) :
    a = b :=
  String.ext (List.map_injective_iff.mpr Char.toNat_injective (lexLE_antisymm _ _ h1 h2))

instance strLE_isAntisymm : IsAntisymm String (fun a b => strLE a b = true) :=
  ⟨strLE_antisymm⟩

theorem sort.Strings_eq_of_perm (l₁ l₂ : List String) (h : l₁.Perm l₂) :
    sort.Strings l₁ = sort.Strings l₂ :=
  List.eq_of_perm_of_sorted
    (((sort.Strings_perm l₁).trans h).trans (sort.Strings_perm l₂).symm)
    (sort.Strings_sorted l₁) (sort.Strings_sorted l₂)

theorem GenerateSign.step_congr (m₁ m₂ : GoMap) (q : String) (ik : Nat × String)
    (h : m₁.get ik.2 = m₂.get ik.2) : GenerateSign.step m₁ q ik = GenerateSign.step m₂ q ik := by
  unfold GenerateSign.step
  rw [h]

/-- C14: two payloads with the same keys and the same value for every key,
in whatever order their entries stand, give the same string to hash and the
same signature, for every secret. -/
theorem GenerateSign_order_independent (m₁ m₂ : GoMap) (md5Key : String)
    (hk : m₁.keys.Perm m₂.keys) (hv : ∀ k ∈ m₁.keys, m₁.get k = m₂.get k) :
    GenerateSign.queryString m₁ md5Key = GenerateSign.queryString m₂ md5Key
      ∧ GenerateSign m₁ md5Key = GenerateSign m₂ md5Key := by
  have hq : GenerateSign.queryString m₁ md5Key = GenerateSign.queryString m₂ md5Key := by
    simp only [GenerateSign.queryString]
    rw [← sort.Strings_eq_of_perm _ _ hk]
    congr 1
    apply List.foldl_ext
    intro q ik hik
    apply GenerateSign.step_congr
    apply hv
    exact (sort.Strings_perm _).mem_iff.mp (List.snd_mem_of_mem_enum hik)
  exact ⟨hq, by simp only [GenerateSign, hq]⟩

set_option maxRecDepth 100000 in
/-- C14, on the payload `{b: 2, a: 1, c: nil}` with its entries in two
orders. -/
theorem GenerateSign_order_independent_witness :
    (GoMap.keys [("b", .num (Float64.ofNat 2)), ("a", .num (Float64.ofNat 1)), ("c", .null)]).Perm
        (GoMap.keys [("c", .null), ("a", .num (Float64.ofNat 1)), ("b", .num (Float64.ofNat 2))])
      ∧ (∀ k ∈ GoMap.keys
            [("b", .num (Float64.ofNat 2)), ("a", .num (Float64.ofNat 1)), ("c", .null)],
          GoMap.get [("b", .num (Float64.ofNat 2)), ("a", .num (Float64.ofNat 1)), ("c", .null)] k
            = GoMap.get
                [("c", .null), ("a", .num (Float64.ofNat 1)), ("b", .num (Float64.ofNat 2))] k)
      ∧ (GenerateSign.queryString
            [("b", .num (Float64.ofNat 2)), ("a", .num (Float64.ofNat 1)), ("c", .null)] "k"
          = GenerateSign.queryString
              [("c", .null), ("a", .num (Float64.ofNat 1)), ("b", .num (Float64.ofNat 2))] "k"
        ∧ GenerateSign
            [("b", .num (Float64.ofNat 2)), ("a", .num (Float64.ofNat 1)), ("c", .null)] "k"
          = GenerateSign
              [("c", .null), ("a", .num (Float64.ofNat 1)), ("b", .num (Float64.ofNat 2))] "k")
      ∧ GenerateSign.queryString
          [("c", .null), ("a", .num (Float64.ofNat 1)), ("b", .num (Float64.ofNat 2))] "k"
          = "a=1&b=2k" :=
  ⟨by decide, by decide,
    GenerateSign_order_independent _ _ "k" (by decide) (by decide), by decide⟩

/-! ## What the signature string tells of the payload -/

theorem sep_split (c : Char) :
    ∀ x y r₁ r₂ : List Char, c ∉ x → c ∉ y → x ++ c :: r₁ = y ++ c :: r₂ → x = y ∧ r₁ = r₂
  | [], [], _, _, _, _, h => by
    simp only [List.nil_append, List.cons.injEq, true_and] at h
    exact ⟨rfl, h⟩
  | [], b :: y, _, _, _, hy, h => by
    simp only [List.nil_append, List.cons_append, List.cons.injEq] at h
    exact absurd (h.1 ▸ List.mem_cons_self _ _) hy
  | a :: x, [], _, _, hx, _, h => by
    simp only [List.nil_append, List.cons_append, List.cons.injEq] at h
    exact absurd (h.1 ▸ List.mem_cons_self _ _) hx
  | a :: x, b :: y, r₁, r₂, hx, hy, h => by
    simp only [List.cons_append, List.cons.injEq] at h
    obtain ⟨h1, h2⟩ := sep_split c x y r₁ r₂ (fun hm => hx (List.mem_cons_of_mem _ hm))
      (fun hm => hy (List.mem_cons_of_mem _ hm)) h.2
    exact ⟨by rw [h.1, h1], h2⟩

/-- The characters of segments joined by `&`. -/
theorem String.intercalate_go_data :
    ∀ (l : List String) (acc : String),
      (String.intercalate.go acc "&" l).data
        = acc.data ++ (l.map (fun p => '&' :: p.data)).flatten
  | [], acc => by simp [String.intercalate.go]
  | p :: l, acc => by
    simp only [String.intercalate.go, List.map_cons, List.flatten_cons]
    rw [String.intercalate_go_data l]
    simp [String.data_append]

theorem joined_injective :
    ∀ (xs ys : List (List Char)) (x y : List Char),
      '&' ∉ x → '&' ∉ y → (∀ p ∈ xs, '&' ∉ p) → (∀ p ∈ ys, '&' ∉ p) →
      x ++ (xs.map (fun p => '&' :: p)).flatten = y ++ (ys.map (fun p => '&' :: p)).flatten →
      x = y ∧ xs = ys
  | [], [], x, y, _, _, _, _, h => by
    simpa using h
  | [], q :: ys, x, y, hx, _, _, _, h => by
    simp only [List.map_nil, List.flatten_nil, List.append_nil, List.map_cons,
      List.flatten_cons] at h
    exact absurd (h ▸ List.mem_append_right _ (List.mem_append_left _
      (List.mem_cons_self _ _))) hx
  | p :: xs, [], x, y, _, hy, _, _, h => by
    simp only [List.map_nil, List.flatten_nil, List.append_nil, List.map_cons,
      List.flatten_cons] at h
    exact absurd (h ▸ List.mem_append_right _ (List.mem_append_left _
      (List.mem_cons_self _ _))) hy
  | p :: xs, q :: ys, x, y, hx, hy, hxs, hys, h => by
    simp only [List.map_cons, List.flatten_cons, List.cons_append] at h
    obtain ⟨h1, h2⟩ := sep_split '&' x y _ _ hx hy h
    obtain ⟨h3, h4⟩ := joined_injective xs ys p q (hxs p (List.mem_cons_self _ _))
      (hys q (List.mem_cons_self _ _)) (fun r hr => hxs r (List.mem_cons_of_mem _ hr))
      (fun r hr => hys r (List.mem_cons_of_mem _ hr)) h2
    exact ⟨h1, by rw [h3, h4]⟩

theorem String.intercalate_injective (ps qs : List String)
    (hp : ∀ p ∈ ps, '&' ∉ p.data ∧ p ≠ "") (hq : ∀ q ∈ qs, '&' ∉ q.data ∧ q ≠ "")
    (h : "&".intercalate ps = "&".intercalate qs) : ps = qs := by
  have hne : ∀ (p : String) (l : List String), p ≠ "" → "&".intercalate (p :: l) ≠ "" := by
    intro p l hp0 hcon
    have hd := congrArg String.data hcon
    simp only [String.intercalate, String.intercalate_go_data] at hd
    have : p.data = [] := (List.append_eq_nil.mp hd).1
    exact hp0 (String.ext this)
  cases ps with
  | nil =>
    cases qs with
    | nil => rfl
    | cons q qs => exact absurd h.symm (hne q qs (hq q (List.mem_cons_self _ _)).2)
  | cons p ps =>
    cases qs with
    | nil => exact absurd h (hne p ps (hp p (List.mem_cons_self _ _)).2)
    | cons q qs =>
      have hd := congrArg String.data h
      simp only [String.intercalate, String.intercalate_go_data] at hd
      have hmap : ∀ l : List String,
          l.map (fun p => '&' :: p.data) = (l.map String.data).map (fun p => '&' :: p) := by
        intro l
        rw [List.map_map]
        rfl
      rw [hmap ps, hmap qs] at hd
      obtain ⟨h1, h2⟩ := joined_injective _ _ _ _ (hp p (List.mem_cons_self _ _)).1
        (hq q (List.mem_cons_self _ _)).1
        (by
          intro r hr
          obtain ⟨s, hs, rfl⟩ := List.mem_map.mp hr
          exact (hp s (List.mem_cons_of_mem _ hs)).1)
        (by
          intro r hr
          obtain ⟨s, hs, rfl⟩ := List.mem_map.mp hr
          exact (hq s (List.mem_cons_of_mem _ hs)).1) hd
      have h3 : ps = qs := List.map_injective_iff.mpr (fun a b hab => String.ext hab) h2
      rw [String.ext h1, h3]

theorem pair_injective (k₁ k₂ v₁ v₂ : String) (h₁ : '=' ∉ k₁.data) (h₂ : '=' ∉ k₂.data)
    (h : k₁ ++ "=" ++ v₁ = k₂ ++ "=" ++ v₂) : k₁ = k₂ ∧ v₁ = v₂ := by
  have hd := congrArg String.data h
  simp only [String.data_append, List.append_assoc] at hd
  obtain ⟨h1, h2⟩ := sep_split '=' k₁.data k₂.data v₁.data v₂.data h₁ h₂ hd
  exact ⟨String.ext h1, String.ext h2⟩

theorem pairs_injective (m₁ m₂ : GoMap) :
    ∀ K₁ K₂ : List String, (∀ k ∈ K₁, '=' ∉ k.data) → (∀ k ∈ K₂, '=' ∉ k.data) →
      K₁.map (fun k => k ++ "=" ++ fmt.v (m₁.get k))
        = K₂.map (fun k => k ++ "=" ++ fmt.v (m₂.get k)) →
      K₁ = K₂ ∧ ∀ k ∈ K₁, fmt.v (m₁.get k) = fmt.v (m₂.get k)
  | [], [], _, _, _ => ⟨rfl, fun _ h => absurd h (List.not_mem_nil _)⟩
  | [], _ :: _, _, _, h => by simp at h
  | _ :: _, [], _, _, h => by simp at h
  | a :: K₁, b :: K₂, h₁, h₂, h => by
    simp only [List.map_cons, List.cons.injEq] at h
    obtain ⟨hab, hv⟩ := pair_injective a b _ _ (h₁ a (List.mem_cons_self _ _))
      (h₂ b (List.mem_cons_self _ _)) h.1
    obtain ⟨hK, hrest⟩ := pairs_injective m₁ m₂ K₁ K₂
      (fun k hk => h₁ k (List.mem_cons_of_mem _ hk))
      (fun k hk => h₂ k (List.mem_cons_of_mem _ hk)) h.2
    subst hab
    refine ⟨by rw [hK], ?_⟩
    intro k hk
    rcases List.mem_cons.mp hk with rfl | hk
    · exact hv
    · exact hrest k hk

theorem GenerateSign.queryString_of_no_null (m : GoMap) (md5Key : String)
    (h : ∀ k ∈ m.keys, m.get k ≠ .null) :
    GenerateSign.queryString m md5Key
      = "&".intercalate ((sort.Strings m.keys).map (fun k => k ++ "=" ++ fmt.v (m.get k)))
          ++ md5Key := by
  simp only [GenerateSign.queryString]
  rw [GenerateSign.foldl_all m (sort.Strings m.keys)
    (fun k hk => h k ((sort.Strings_perm _).mem_iff.mp hk))]

/-- C15, as stated, fails: the payloads `{a: "1"}` and `{a: 1}` differ in the
type of the value of `a`, and the payloads `{a: "1&b=2"}` and
`{a: "1", b: "2"}` differ in their keys; none has a null value, and for each of
the two pairs the strings that `GenerateSign` hashes, and so the signatures,
are the same. -/
theorem GenerateSign_string_not_injective :
    ([("a", .str "1")] : GoMap) ≠ [("a", .num (Float64.ofNat 1))]
      ∧ GoMap.get [("a", .str "1")] "a" ≠ GoMap.get [("a", .num (Float64.ofNat 1))] "a"
      ∧ GenerateSign.queryString [("a", .str "1")] "k" = "a=1k"
      ∧ GenerateSign.queryString [("a", .num (Float64.ofNat 1))] "k" = "a=1k"
      ∧ GoMap.keys [("a", .str "1&b=2")] = ["a"]
      ∧ GoMap.keys [("a", .str "1"), ("b", .str "2")] = ["a", "b"]
      ∧ GenerateSign.queryString [("a", .str "1&b=2")] "k" = "a=1&b=2k"
      ∧ GenerateSign.queryString [("a", .str "1"), ("b", .str "2")] "k" = "a=1&b=2k" := by
  decide

/-- C15, amended: for every secret and every two payloads without null values
in which no key holds `=` or `&` and no value is written with an `&`: if the
strings that `GenerateSign` hashes are equal, then the payloads have the same
keys and every key has the same written form of its value in both. -/
theorem GenerateSign_string_identifies_written_payload (m₁ m₂ : GoMap) (md5Key : String)
    (hn₁ : ∀ k ∈ m₁.keys, m₁.get k ≠ .null) (hn₂ : ∀ k ∈ m₂.keys, m₂.get k ≠ .null)
    (hk₁ : ∀ k ∈ m₁.keys, '=' ∉ k.data ∧ '&' ∉ k.data)
    (hk₂ : ∀ k ∈ m₂.keys, '=' ∉ k.data ∧ '&' ∉ k.data)
    (hv₁ : ∀ k ∈ m₁.keys, '&' ∉ (fmt.v (m₁.get k)).data)
    (hv₂ : ∀ k ∈ m₂.keys, '&' ∉ (fmt.v (m₂.get k)).data)
    (h : GenerateSign.queryString m₁ md5Key = GenerateSign.queryString m₂ md5Key) :
    m₁.keys.Perm m₂.keys ∧ ∀ k ∈ m₁.keys, fmt.v (m₁.get k) = fmt.v (m₂.get k) := by
  rw [GenerateSign.queryString_of_no_null m₁ md5Key hn₁,
    GenerateSign.queryString_of_no_null m₂ md5Key hn₂] at h
  have hd := congrArg String.data h
  simp only [String.data_append] at hd
  have hj := String.ext (List.append_cancel_right hd)
  have hpair : ∀ (m : GoMap), (∀ k ∈ m.keys, '=' ∉ k.data ∧ '&' ∉ k.data) →
      (∀ k ∈ m.keys, '&' ∉ (fmt.v (m.get k)).data) →
      ∀ p ∈ (sort.Strings m.keys).map (fun k => k ++ "=" ++ fmt.v (m.get k)),
        '&' ∉ p.data ∧ p ≠ "" := by
    intro m hk hv p hp
    obtain ⟨k, hkm, rfl⟩ := List.mem_map.mp hp
    have hkm2 : k ∈ m.keys := (sort.Strings_perm _).mem_iff.mp hkm
    constructor
    · simp only [String.data_append, List.mem_append, not_or]
      exact ⟨⟨(hk k hkm2).2, by decide⟩, hv k hkm2⟩
    · intro hcon
      have := congrArg String.data hcon
      simp [String.data_append] at this
  have hps := String.intercalate_injective _ _ (hpair m₁ hk₁ hv₁) (hpair m₂ hk₂ hv₂) hj
  obtain ⟨hK, hvals⟩ := pairs_injective m₁ m₂ _ _
    (fun k hk => (hk₁ k ((sort.Strings_perm _).mem_iff.mp hk)).1)
    (fun k hk => (hk₂ k ((sort.Strings_perm _).mem_iff.mp hk)).1) hps
  refine ⟨?_, fun k hk => hvals k ((sort.Strings_perm _).mem_iff.mpr hk)⟩
  exact ((sort.Strings_perm m₁.keys).symm.trans (hK ▸ List.Perm.refl _)).trans
    (sort.Strings_perm m₂.keys)

/-- C15, amended, on the payload `{uid: "U1", cid: "C1"}` with its entries in
two orders. -/
theorem GenerateSign_string_identifies_written_payload_witness :
    (∀ k ∈ GoMap.keys [("uid", .str "U1"), ("cid", .str "C1")],
        GoMap.get [("uid", .str "U1"), ("cid", .str "C1")] k ≠ .null)
      ∧ (∀ k ∈ GoMap.keys [("cid", .str "C1"), ("uid", .str "U1")],
        GoMap.get [("cid", .str "C1"), ("uid", .str "U1")] k ≠ .null)
      ∧ (∀ k ∈ GoMap.keys [("uid", .str "U1"), ("cid", .str "C1")],
        '=' ∉ k.data ∧ '&' ∉ k.data)
      ∧ (∀ k ∈ GoMap.keys [("cid", .str "C1"), ("uid", .str "U1")],
        '=' ∉ k.data ∧ '&' ∉ k.data)
      ∧ (∀ k ∈ GoMap.keys [("uid", .str "U1"), ("cid", .str "C1")],
        '&' ∉ (fmt.v (GoMap.get [("uid", .str "U1"), ("cid", .str "C1")] k)).data)
      ∧ (∀ k ∈ GoMap.keys [("cid", .str "C1"), ("uid", .str "U1")],
        '&' ∉ (fmt.v (GoMap.get [("cid", .str "C1"), ("uid", .str "U1")] k)).data)
      ∧ GenerateSign.queryString [("uid", .str "U1"), ("cid", .str "C1")] "secret"
          = GenerateSign.queryString [("cid", .str "C1"), ("uid", .str "U1")] "secret"
      ∧ (GoMap.keys [("uid", .str "U1"), ("cid", .str "C1")]).Perm
          (GoMap.keys [("cid", .str "C1"), ("uid", .str "U1")])
      ∧ ∀ k ∈ GoMap.keys [("uid", .str "U1"), ("cid", .str "C1")],
          fmt.v (GoMap.get [("uid", .str "U1"), ("cid", .str "C1")] k)
            = fmt.v (GoMap.get [("cid", .str "C1"), ("uid", .str "U1")] k) :=
  ⟨by decide, by decide, by decide, by decide, by decide, by decide, by decide,
    GenerateSign_string_identifies_written_payload _ _ "secret" (by decide) (by decide)
      (by decide) (by decide) (by decide) (by decide) (by decide)⟩
